import Mathlib

/-!
Shallow embedding of the installation-state reconciliation engine of the
claude-code-docs cross-platform installer (`src/install.py`) and uninstaller
(`src/uninstall.py`).

Modelling conventions:
  * A Python string is a `List Char`; the primitives below (`pyStrip`,
    `pySplitOn`, `pyStartsWith`, ...) mirror the Python `str` methods the
    source uses.  (`pyStrip` strips the whitespace characters git status
    output can contain: space, tab, CR, LF.)
  * A git subprocess invocation is modelled by its outcome, an
    `Option (Int × List Char)`: `none` when the call raised (timeout,
    missing executable), `some (returncode, stdout)` otherwise.
  * Filesystem effects (mkdir, rmtree, chdir, file existence) are modelled
    as explicit boolean inputs recording whether the operation succeeds or
    the file exists; filesystem paths are modelled as `String` values and
    `Path.resolve()` as an arbitrary function on them.
  * JSON values read from the settings file are modelled by the inductive
    `JVal`.
Each definition mirrors its Python source function line by line; the cited
line numbers refer to `src/install.py` and `src/uninstall.py`.
-/

namespace ClaudeCodeDocs

/-- Python `str.strip()`: drop whitespace from both ends. -/
def pyStrip (s : List Char) : List Char :=
  ((s.dropWhile Char.isWhitespace).reverse.dropWhile Char.isWhitespace).reverse

/-- Python `str.split(sep)` for a single-character separator (the source only
splits on a newline).  Keeps empty pieces, and yields `[[]]` on the empty
string, exactly like Python. -/
def pySplitOn (sep : Char) : List Char → List (List Char)
  | [] => [[]]
  | c :: rest =>
    match pySplitOn sep rest with
    | [] => [[]]
    | grp :: grps => if c == sep then [] :: grp :: grps else (c :: grp) :: grps

/-- Python `s.startswith(pre)`. -/
def pyStartsWith : List Char → List Char → Bool
  | [], _ => true
  | _ :: _, [] => false
  | p :: ps, c :: cs => p == c && pyStartsWith ps cs

/-- Python `s.endswith(suffix)`. -/
def pyEndsWith (sfx s : List Char) : Bool :=
  pyStartsWith sfx.reverse s.reverse

/-- Python `sub in s`: substring containment. -/
def pyContains (s sub : List Char) : Bool :=
  if pyStartsWith sub s then true
  else
    match s with
    | [] => false
    | _ :: rest => pyContains rest sub

/-- Python `str.lower()` (ASCII suffices for the literals the source compares). -/
def pyLower (s : List Char) : List Char :=
  s.map Char.toLower

/-- The designated manifest file as it appears in porcelain status lines
(`"docs/docs_manifest.json"`, used by every status helper of install.py). -/
def manifestPath : List Char := "docs/docs_manifest.json".data

/-- install.py line 21: the configured target branch. -/
def INSTALL_BRANCH : String := "main"

/-- Outcome of one git subprocess call: `none` when `_run_git_command`
raised (timeout or missing executable), otherwise the return code and the
captured stdout. -/
abbrev GitOutcome := Option (Int × List Char)

namespace Install

/-- install.py `_git_has_uncommitted_changes` (lines 198-222).  A raised
exception or a nonzero exit code yields `false`; otherwise, with
`exclude_manifest`, nonblank status lines not mentioning the manifest file
are counted, and without it any nonempty output counts. -/
def git_has_uncommitted_changes (res : GitOutcome) (exclude_manifest : Bool) : Bool :=
  match res with
  | none => false
  | some (rc, stdout) =>
    if rc != 0 then false
    else
      let changes := pyStrip stdout
      if changes.isEmpty then false
      else if exclude_manifest then
        let filtered_changes := (pySplitOn '\n' changes).filter fun line =>
          !(pyStrip line).isEmpty && !pyContains line manifestPath
        decide (filtered_changes.length > 0)
      else true

/-- install.py `_git_has_conflicts` (lines 224-248): count status lines
starting with `UU`, `AA` or `DD`, skipping manifest lines in exclusion mode. -/
def git_has_conflicts (res : GitOutcome) (exclude_manifest : Bool) : Bool :=
  match res with
  | none => false
  | some (rc, stdout) =>
    if rc != 0 then false
    else
      let changes := pyStrip stdout
      if changes.isEmpty then false
      else
        let conflict_lines := (pySplitOn '\n' changes).filter fun line =>
          !(pyStrip line).isEmpty
            && (pyStartsWith "UU".data line || pyStartsWith "AA".data line
                || pyStartsWith "DD".data line)
            && !(exclude_manifest && pyContains line manifestPath)
        decide (conflict_lines.length > 0)

/-- install.py `_git_has_untracked_files` (lines 250-274): a `??` line whose
file name does not end in one of the temp extensions. -/
def git_has_untracked_files (res : GitOutcome) : Bool :=
  match res with
  | none => false
  | some (rc, stdout) =>
    if rc != 0 then false
    else
      let changes := pyStrip stdout
      if changes.isEmpty then false
      else
        let temp_extensions : List (List Char) := [".tmp".data, ".log".data, ".swp".data]
        (pySplitOn '\n' changes).any fun line =>
          !(pyStrip line).isEmpty && pyStartsWith "??".data line
            && !(temp_extensions.any fun ext => pyEndsWith ext (pyStrip (line.drop 3)))

/-- Per-step outcomes of `_git_force_clean_checkout`: each field is `none`
when the corresponding git call raised, `some rc` otherwise. -/
structure ForceCleanEnv where
  resetRes : Option Int
  checkoutRes : Option Int
  hardResetRes : Option Int
  cleanRes : Option Int

/-- install.py `_git_force_clean_checkout` (lines 290-317).  A raised
exception anywhere yields `false`; the `checkout -B` and `reset --hard`
return codes are inspected, while the return codes of the initial `reset`
and of `clean -fd` are not. -/
def git_force_clean_checkout (env : ForceCleanEnv) : Bool :=
  match env.resetRes with
  | none => false
  | some _ =>
    match env.checkoutRes with
    | none => false
    | some rc1 =>
      if rc1 != 0 then false
      else
        match env.hardResetRes with
        | none => false
        | some rc2 =>
          if rc2 != 0 then false
          else
            match env.cleanRes with
            | none => false
            | some _ => true

/-- Inputs of one `_safe_git_update` run.  The `pull.rebase` config step
(lines 333-338) only mutates git configuration and cannot change the
returned value or the prompting, so it has no field.  Each status helper
runs its own `git status` call, hence separate outcome fields. -/
structure UpdateEnv where
  currentBranch : String
  pullRes : Option Int
  fetchRes : Option Int
  conflictStatus : GitOutcome
  changesStatus : GitOutcome
  untrackedStatus : GitOutcome
  userResponse : Option (List Char)
  forceClean : ForceCleanEnv

/-- Result of `_safe_git_update`: the returned boolean, and whether the
interactive confirmation prompt (the `input()` call, line 400) was reached. -/
structure UpdateResult where
  success : Bool
  prompted : Bool

/-- install.py `_safe_git_update` (lines 319-444).  `userResponse = none`
models `input()` raising EOFError/KeyboardInterrupt. -/
def safe_git_update (env : UpdateEnv) : UpdateResult :=
  let current_branch := env.currentBranch
  let target_branch := INSTALL_BRANCH
  if env.pullRes == some 0 then ⟨true, false⟩
  else
    let fetch_ok := match env.fetchRes with
      | none => false
      | some rc => rc == 0
    if !fetch_ok then ⟨false, false⟩
    else if current_branch != target_branch then
      ⟨git_force_clean_checkout env.forceClean, false⟩
    else
      let has_conflicts := git_has_conflicts env.conflictStatus true
      let has_local_changes := git_has_uncommitted_changes env.changesStatus true
      let has_untracked := git_has_untracked_files env.untrackedStatus
      let needs_user_confirmation := has_conflicts || has_local_changes || has_untracked
      if needs_user_confirmation then
        match env.userResponse with
        | none => ⟨false, true⟩
        | some r =>
          let response := pyLower (pyStrip r)
          if response != "y".data && response != "yes".data then ⟨false, true⟩
          else ⟨git_force_clean_checkout env.forceClean, true⟩
      else
        ⟨git_force_clean_checkout env.forceClean, false⟩

/-- Inputs of one `_fresh_clone` run. -/
structure FreshCloneEnv where
  mkdirOk : Bool
  installDirExists : Bool
  rmtreeOk : Bool
  cloneRes : Option Int
  chdirOk : Bool
  manifestExists : Bool

/-- install.py `_fresh_clone` (lines 966-1003): make the parent directory,
remove a stale target, clone, change into it, and verify the manifest
marker file is present. -/
def fresh_clone (env : FreshCloneEnv) : Bool :=
  if !env.mkdirOk then false
  else if env.installDirExists && !env.rmtreeOk then false
  else
    match env.cloneRes with
    | none => false
    | some rc =>
      if rc != 0 then false
      else if !env.chdirOk then false
      else if !env.manifestExists then false
      else true

/-- Inputs of one `_migrate_installation` run. -/
structure MigrateEnv where
  oldIsGitRepo : Bool
  oldStatusRes : GitOutcome
  fresh : FreshCloneEnv
  rmtreeOldOk : Bool

/-- Result of `_migrate_installation`: the returned boolean, whether the
old-directory deletion was attempted, and whether it succeeded (so
`oldRemoved = false` means the old directory is still on disk). -/
structure MigrateResult where
  success : Bool
  deleteAttempted : Bool
  oldRemoved : Bool
deriving DecidableEq

/-- install.py `_migrate_installation` (lines 930-964): preserve the old
directory when it is a git repository with uncommitted changes
(manifest-inclusive check); fresh-clone; delete the old directory unless
preserved, a deletion failure being logged but not failing the migration. -/
def migrate_installation (env : MigrateEnv) : MigrateResult :=
  let should_preserve :=
    env.oldIsGitRepo && git_has_uncommitted_changes env.oldStatusRes false
  if !fresh_clone env.fresh then ⟨false, false, false⟩
  else if !should_preserve then ⟨true, true, env.rmtreeOldOk⟩
  else ⟨true, false, false⟩

/-- Per-directory fate in the cleanup passes. -/
inductive CleanupDecision where
  | removed
  | removeFailed
  | preservedChanges
  | preservedNotGit
deriving DecidableEq

/-- install.py `cleanup_old_installations` (lines 1393-1417), the decision
for one old directory: `isGitDir` is `(old_dir / ".git").is_dir()` and
`rmtreeOk` whether `shutil.rmtree` succeeds.  The `except` branch of lines
1412-1414 (preserve when the status check fails) is unreachable, because
`_git_has_uncommitted_changes` catches every exception internally and maps
both a raised error and a nonzero exit code to `False`. -/
def cleanup_old_installation_decision (isGitDir : Bool) (statusRes : GitOutcome)
    (rmtreeOk : Bool) : CleanupDecision :=
  if isGitDir then
    let has_changes := git_has_uncommitted_changes statusRes false
    if !has_changes then
      if rmtreeOk then .removed else .removeFailed
    else .preservedChanges
  else .preservedNotGit

end Install

namespace Uninstall

/-- uninstall.py `_git_has_uncommitted_changes` (lines 144-160): a failed or
raised git call conservatively reports `true` ("assume there might be
changes"); otherwise nonempty stripped output. -/
def git_has_uncommitted_changes (res : GitOutcome) : Bool :=
  match res with
  | none => true
  | some (rc, stdout) =>
    if rc != 0 then true
    else !(pyStrip stdout).isEmpty

/-- uninstall.py `remove_directories` (lines 459-490), the decision for one
installation directory. -/
def remove_directory_decision (isGitDir : Bool) (statusRes : GitOutcome)
    (rmtreeOk : Bool) : Install.CleanupDecision :=
  if isGitDir then
    let has_changes := git_has_uncommitted_changes statusRes
    if !has_changes then
      if rmtreeOk then .removed else .removeFailed
    else .preservedChanges
  else .preservedNotGit

end Uninstall

/-- A JSON value as loaded from the settings file. -/
inductive JVal where
  | jstr (s : String)
  | jnum (n : Int)
  | jbool (b : Bool)
  | jnull
  | jarr (elems : List JVal)
  | jobj (fields : List (String × JVal))

/-- Python dict lookup (JSON object keys are unique, so first match). -/
def jlookup (fields : List (String × JVal)) (key : String) : Option JVal :=
  match fields with
  | [] => none
  | (k, v) :: rest => if k == key then some v else jlookup rest key

/-- Python `str(v)` as uninstall.py line 372 applies it to a hook command
value.  For containers this is an approximation of the Python repr (the
claims below never evaluate it on a container). -/
def pyStr : JVal → List Char
  | .jstr s => s.data
  | .jnum n => (toString n).data
  | .jbool b => if b then "True".data else "False".data
  | .jnull => "None".data
  | .jarr _ => "<list>".data
  | .jobj _ => "<dict>".data

namespace Install

/-- install.py `setup_claude_hooks` (lines 1306-1311): a sub-hook references
the tool when it is a dict whose "command" value is a string containing
"claude-code-docs". -/
def sub_hook_references_docs (sub_hook : JVal) : Bool :=
  match sub_hook with
  | .jobj fields =>
    match jlookup fields "command" with
    | some (.jstr command) => pyContains command.data "claude-code-docs".data
    | _ => false
  | _ => false

/-- install.py `setup_claude_hooks` (lines 1302-1319), one loop entry:
`some keep` when the Python iteration completes (`keep` is whether the entry
stays), `none` when it raises.  An entry that is not a dict with a "hooks"
key is KEPT (the explicit else branch of lines 1317-1319).  Iterating a
string "hooks" value yields characters and a dict yields its string keys,
none of which is a dict, so such entries are kept; iterating a number, bool
or null raises TypeError. -/
def setup_hooks_keep_entry (hook : JVal) : Option Bool :=
  match hook with
  | .jobj fields =>
    match jlookup fields "hooks" with
    | some (.jarr sub_hooks) => some (!sub_hooks.any sub_hook_references_docs)
    | some (.jstr _) => some true
    | some (.jobj _) => some true
    | some _ => none
    | none => some true
  | _ => some true

/-- The hook registration install.py appends (lines 1322-1332). -/
def new_docs_hook (hook_command : String) : JVal :=
  .jobj [("matcher", .jstr "Read"),
         ("hooks", .jarr [.jobj [("type", .jstr "command"),
                                 ("command", .jstr hook_command)]])]

/-- install.py `setup_claude_hooks` (lines 1298-1333): drop the entries
referencing the tool, count them, and append the fresh hook registration.
`none` when the loop raised. -/
def setup_claude_hooks_clean (hook_command : String) :
    List JVal → Option (List JVal × Nat)
  | [] => some ([new_docs_hook hook_command], 0)
  | hook :: rest => do
    let keep ← setup_hooks_keep_entry hook
    let (cleaned, removed) ← setup_claude_hooks_clean hook_command rest
    if keep then some (hook :: cleaned, removed)
    else some (cleaned, removed + 1)

end Install

namespace Uninstall

/-- uninstall.py `remove_hooks` (lines 370-375): a sub-hook references the
tool when it is a dict with a "command" key whose value, coerced by
`str()`, contains "claude-code-docs". -/
def sub_hook_references_docs (hook : JVal) : Bool :=
  match hook with
  | .jobj fields =>
    match jlookup fields "command" with
    | some v => pyContains (pyStr v) "claude-code-docs".data
    | none => false
  | _ => false

/-- uninstall.py `remove_hooks` (lines 363-379), the PreToolUse filter: an
entry that is a dict with a "hooks" key is kept iff no sub-hook references
the tool (a non-list "hooks" value leaves `contains_docs` false, so the
entry is kept); any other entry is DROPPED — the loop never appends entries
that are not dicts with a "hooks" key. -/
def remove_hooks_filter (original_hooks : List JVal) : List JVal :=
  original_hooks.filter fun hook_entry =>
    match hook_entry with
    | .jobj fields =>
      match jlookup fields "hooks" with
      | some (.jarr hooks_list) => !hooks_list.any sub_hook_references_docs
      | some _ => true
      | none => false
    | _ => false

/-- uninstall.py `remove_hooks` (lines 380-399) reduced to the PreToolUse
list: the rewritten list (`none` when the now-empty key is deleted) and
whether the settings file is rewritten. -/
def remove_hooks_pre_tool_use (original_hooks : List JVal) :
    Option (List JVal) × Bool :=
  let filtered := remove_hooks_filter original_hooks
  let after := if filtered.length != original_hooks.length then filtered
               else original_hooks
  if after.isEmpty then (none, true)
  else (some after, filtered.length != original_hooks.length)

end Uninstall

namespace Install

/-- install.py `find_existing_installations` (lines 877-894), the
deduplication loop: resolve each candidate, skip the canonical install path
and anything already collected.  The accumulator holds the collected
resolved paths in reverse order (playing both `unique_paths` and
`seen_paths`, which always have the same members). -/
def dedup_go (resolve : String → String) (install_abs : String) :
    List String → List String → List String
  | [], unique_paths => unique_paths.reverse
  | path :: rest, unique_paths =>
    let abs_path := resolve path
    if abs_path ≠ install_abs ∧ abs_path ∉ unique_paths then
      dedup_go resolve install_abs rest (abs_path :: unique_paths)
    else
      dedup_go resolve install_abs rest unique_paths

/-- Inputs of one `find_existing_installations` run.  The candidates
recovered from the two configuration sources (the command file scan, lines
762-805, and the settings hooks scan, lines 807-869) are I/O- and
regex-driven and enter the model as the already-recovered lists;
`cwdManifestExists` is `(cwd / "docs" / "docs_manifest.json").exists()`. -/
structure ScannerEnv where
  commandFileCandidates : List String
  settingsCandidates : List String
  cwd : String
  cwdManifestExists : Bool
  installDir : String
  resolve : String → String

/-- install.py `find_existing_installations` (lines 871-875): the raw
candidate list, with the current working directory appended when it holds
the manifest marker and differs from the canonical install directory. -/
def find_existing_installations_candidates (env : ScannerEnv) : List String :=
  let paths := env.commandFileCandidates ++ env.settingsCandidates
  if env.cwdManifestExists && env.cwd != env.installDir then paths ++ [env.cwd]
  else paths

/-- install.py `find_existing_installations` (lines 753-894): candidates,
then deduplication excluding the resolved install directory, then sort. -/
def find_existing_installations (env : ScannerEnv) : List String :=
  List.insertionSort (· ≤ ·)
    (dedup_go env.resolve (env.resolve env.installDir)
      (find_existing_installations_candidates env) [])

end Install

namespace Uninstall

/-- uninstall.py `find_installations` (lines 280-296), the deduplication
loop: resolve each candidate and skip anything already collected — unlike
the install-time scanner, nothing is excluded. -/
def dedup_go (resolve : String → String) :
    List String → List String → List String
  | [], unique_paths => unique_paths.reverse
  | path :: rest, unique_paths =>
    let abs_path := resolve path
    if abs_path ∉ unique_paths then
      dedup_go resolve rest (abs_path :: unique_paths)
    else
      dedup_go resolve rest unique_paths

/-- uninstall.py `find_installations` (lines 162-296): the recovered
candidates (the two configuration-source scans abstracted as the input
list), deduplicated and sorted. -/
def find_installations (resolve : String → String) (paths : List String) :
    List String :=
  List.insertionSort (· ≤ ·) (dedup_go resolve paths [])

end Uninstall

end ClaudeCodeDocs

namespace ClaudeCodeDocs

/-! ## Theorems settling the claims -/

/-- C1: the claim says a version-controlled legacy directory whose
uncommitted-changes status check fails or raises is always preserved by the
cleanup passes.  At the failing input (status exits 1, or the git call
raises) the install-time cleanup pass REMOVES the directory, because
install.py maps a failed status check to "no changes"; the uninstall-time
pass preserves it as the claim states. -/
theorem C1_cleanup_status_error_divergence :
    Install.cleanup_old_installation_decision true (some (1, [])) true
      = Install.CleanupDecision.removed
    ∧ Install.cleanup_old_installation_decision true none true
      = Install.CleanupDecision.removed
    ∧ Uninstall.remove_directory_decision true (some (1, [])) true
      = Install.CleanupDecision.preservedChanges
    ∧ Uninstall.remove_directory_decision true none true
      = Install.CleanupDecision.preservedChanges := by decide

/-- C2: the claim says every PreToolUse entry not referencing the tool —
including entries lacking the expected structure — is preserved by both
rewriting passes.  At the failing input (a bare string entry), the
uninstall-time filter drops the entry and deletes the then-empty key while
the install-time pass keeps the entry (and appends the new hook, removing
nothing). -/
theorem C2_malformed_hook_entry_divergence :
    Uninstall.remove_hooks_filter [JVal.jstr "echo legacy-entry"] = []
    ∧ Uninstall.remove_hooks_pre_tool_use [JVal.jstr "echo legacy-entry"] = (none, true)
    ∧ Install.setup_claude_hooks_clean
        "/home/user/.claude-code-docs/claude-docs-helper.sh hook-check"
        [JVal.jstr "echo legacy-entry"]
      = some ([JVal.jstr "echo legacy-entry",
          Install.new_docs_hook
            "/home/user/.claude-code-docs/claude-docs-helper.sh hook-check"], 0) :=
  ⟨rfl, rfl, rfl⟩

/-- C3 counterexample: a run in which the index reset and the untracked-file
removal both exit with code 1 (and the two middle steps succeed) still
reports success, refuting the claim that the failure of any of the four
steps makes the operation report failure. -/
theorem C3_ignored_step_failure_reports_success :
    Install.git_force_clean_checkout
      { resetRes := some 1, checkoutRes := some 0, hardResetRes := some 0,
        cleanRes := some 1 } = true := rfl

/-- C3 amended: forceCleanCheckout reports success exactly when no step
raises an exception and the force branch checkout and the hard reset both
exit with code 0; the exit codes of the index reset and of the
untracked-file removal are not inspected. -/
theorem C3_force_clean_checked_steps (env : Install.ForceCleanEnv) :
    Install.git_force_clean_checkout env = true ↔
      env.resetRes.isSome = true ∧ env.checkoutRes = some 0
        ∧ env.hardResetRes = some 0 ∧ env.cleanRes.isSome = true := by
  obtain ⟨r, c, h, cl⟩ := env
  cases r <;> cases c <;> cases h <;> cases cl <;>
    simp [Install.git_force_clean_checkout, bne_iff_ne]

/-- C4: a nonempty porcelain status consisting solely of lines referencing
docs/docs_manifest.json yields no uncommitted changes under manifest
exclusion and uncommitted changes without it; any nonblank non-manifest
line yields uncommitted changes in both modes; plus concrete instances. -/
theorem C4_manifest_exclusion_correct :
    (∀ stdout : List Char,
      (pyStrip stdout).isEmpty = false →
      (∀ line ∈ pySplitOn '\n' (pyStrip stdout), pyContains line manifestPath = true) →
      Install.git_has_uncommitted_changes (some (0, stdout)) true = false
      ∧ Install.git_has_uncommitted_changes (some (0, stdout)) false = true)
    ∧ (∀ stdout : List Char,
      (∃ line ∈ pySplitOn '\n' (pyStrip stdout),
        (pyStrip line).isEmpty = false ∧ pyContains line manifestPath = false) →
      Install.git_has_uncommitted_changes (some (0, stdout)) true = true
      ∧ Install.git_has_uncommitted_changes (some (0, stdout)) false = true)
    ∧ Install.git_has_uncommitted_changes (some (0, " M docs/docs_manifest.json".data)) true
        = false
    ∧ Install.git_has_uncommitted_changes (some (0, " M docs/docs_manifest.json".data)) false
        = true
    ∧ Install.git_has_uncommitted_changes
        (some (0, " M docs/docs_manifest.json\n M README.md".data)) true = true := by
  refine ⟨fun stdout hne hall => ⟨?_, ?_⟩, fun stdout hex => ⟨?_, ?_⟩,
    by decide, by decide, by decide⟩
  · unfold Install.git_has_uncommitted_changes
    have hfil : (pySplitOn '\n' (pyStrip stdout)).filter
        (fun line => !(pyStrip line).isEmpty && !pyContains line manifestPath) = [] :=
      List.filter_eq_nil_iff.2 fun a ha => by simp [hall a ha]
    simp [hne, hfil]
  · unfold Install.git_has_uncommitted_changes
    simp [hne]
  · obtain ⟨line, hmem, hlne, hlnc⟩ := hex
    have hne : (pyStrip stdout).isEmpty = false := by
      cases h : (pyStrip stdout).isEmpty
      · rfl
      · exfalso
        rw [List.isEmpty_iff] at h
        rw [h] at hmem
        simp only [pySplitOn, List.mem_singleton] at hmem
        subst hmem
        simp [pyStrip] at hlne
    unfold Install.git_has_uncommitted_changes
    simp only [hne, ← List.countP_eq_length_filter]
    simp [List.countP_pos_iff]
    have hlne' : ¬pyStrip line = [] := fun h => by rw [h] at hlne; simp at hlne
    exact ⟨line, hmem, by simp [hlne', hlnc]⟩
  · obtain ⟨line, hmem, hlne, hlnc⟩ := hex
    have hne : (pyStrip stdout).isEmpty = false := by
      cases h : (pyStrip stdout).isEmpty
      · rfl
      · exfalso
        rw [List.isEmpty_iff] at h
        rw [h] at hmem
        simp only [pySplitOn, List.mem_singleton] at hmem
        subst hmem
        simp [pyStrip] at hlne
    unfold Install.git_has_uncommitted_changes
    simp [hne]

/-- C5 helper: on a successful status call, the conflict check returns true
exactly when some status line is counted: it is nonblank, starts with UU,
AA or DD, and, under exclusion mode, does not reference the manifest. -/
theorem git_has_conflicts_iff (stdout : List Char) (excl : Bool) :
    Install.git_has_conflicts (some (0, stdout)) excl = true ↔
      ∃ line ∈ pySplitOn '\n' (pyStrip stdout),
        (pyStrip line).isEmpty = false
        ∧ (pyStartsWith "UU".data line = true ∨ pyStartsWith "AA".data line = true
            ∨ pyStartsWith "DD".data line = true)
        ∧ (excl = true → pyContains line manifestPath = false) := by
  unfold Install.git_has_conflicts
  by_cases he : (pyStrip stdout).isEmpty
  · rw [List.isEmpty_iff] at he
    rw [he]
    constructor
    · intro h
      simp [he] at h
    · rintro ⟨line, hline, hne, -⟩
      simp only [pySplitOn, List.mem_singleton] at hline
      subst hline
      simp [pyStrip] at hne
  · have he' : (pyStrip stdout).isEmpty = false := by
      cases h : (pyStrip stdout).isEmpty
      · rfl
      · exact absurd h he
    cases excl <;>
      simp [he', ← List.countP_eq_length_filter, List.countP_pos_iff,
        Bool.not_eq_true', and_assoc, or_assoc]

/-- C5: the conflict check returns true exactly when a nonblank status line
starting with UU, AA or DD is counted (under exclusion mode a manifest line
is not counted); a status whose only conflict line references the manifest
yields false under exclusion, and a non-manifest UU line yields true. -/
theorem C5_conflict_detection :
    (∀ (stdout : List Char) (exclude_manifest : Bool),
      Install.git_has_conflicts (some (0, stdout)) exclude_manifest = true ↔
        ∃ line ∈ pySplitOn '\n' (pyStrip stdout),
          (pyStrip line).isEmpty = false
          ∧ (pyStartsWith "UU".data line = true ∨ pyStartsWith "AA".data line = true
              ∨ pyStartsWith "DD".data line = true)
          ∧ (exclude_manifest = true → pyContains line manifestPath = false))
    ∧ Install.git_has_conflicts (some (0, "UU docs/docs_manifest.json".data)) true = false
    ∧ Install.git_has_conflicts (some (0, "UU some_other_file.py".data)) true = true :=
  ⟨git_has_conflicts_iff, by decide, by decide⟩

/-- C6: whenever the current branch differs from the configured target
branch, safeGitUpdate never reaches the interactive-confirmation prompt,
whatever conflicts, local changes, untracked files or responses exist. -/
theorem C6_branch_switch_never_prompts (env : Install.UpdateEnv)
    (h : env.currentBranch ≠ INSTALL_BRANCH) :
    (Install.safe_git_update env).prompted = false := by
  have hb : (env.currentBranch != INSTALL_BRANCH) = true := bne_iff_ne.2 h
  unfold Install.safe_git_update
  split
  · rfl
  · split
    · rfl
    · simp [hb]
      split <;> rfl

/-- C6 witness: a concrete run on branch "develop" with conflicts, local
changes and untracked files present, and the pull failing, never prompts. -/
theorem C6_branch_switch_witness :
    (Install.safe_git_update
      { currentBranch := "develop", pullRes := some 1, fetchRes := some 0,
        conflictStatus := some (0, "UU file.py".data),
        changesStatus := some (0, " M file.py".data),
        untrackedStatus := some (0, "?? new.py".data),
        userResponse := none,
        forceClean := ⟨some 0, some 0, some 0, some 0⟩ }).prompted = false :=
  C6_branch_switch_never_prompts _ (by decide)

/-- C7 helper: freshClone succeeds exactly when the directory preparation,
the clone and the directory change succeed and the manifest marker exists
afterwards. -/
theorem fresh_clone_iff (env : Install.FreshCloneEnv) :
    Install.fresh_clone env = true ↔
      env.mkdirOk = true ∧ (env.installDirExists = true → env.rmtreeOk = true)
        ∧ env.cloneRes = some 0 ∧ env.chdirOk = true ∧ env.manifestExists = true := by
  obtain ⟨mk, ex, rm, cr, cd, mf⟩ := env
  cases mk <;> cases ex <;> cases rm <;> cases cd <;> cases mf <;> cases cr <;>
    simp [Install.fresh_clone, bne_iff_ne]

/-- C7: freshClone returns success only if the manifest marker file exists
after the clone; a clone exiting 0 with the marker absent returns failed,
also at the concrete instance. -/
theorem C7_fresh_clone_requires_manifest :
    (∀ env : Install.FreshCloneEnv,
      (Install.fresh_clone env = true → env.manifestExists = true)
      ∧ (env.cloneRes = some 0 → env.manifestExists = false →
          Install.fresh_clone env = false))
    ∧ Install.fresh_clone
        { mkdirOk := true, installDirExists := false, rmtreeOk := true,
          cloneRes := some 0, chdirOk := true, manifestExists := false } = false := by
  refine ⟨fun env => ⟨fun h => ((fresh_clone_iff env).1 h).2.2.2.2, fun _ hm => ?_⟩, rfl⟩
  cases hfc : Install.fresh_clone env with
  | false => rfl
  | true => exact absurd ((fresh_clone_iff env).1 hfc).2.2.2.2 (by simp [hm])

/-- C8: a version-controlled old directory with uncommitted changes under
the manifest-inclusive check is never removed by a successful migration;
without changes the deletion is attempted and a deletion failure still
leaves the migration successful; plus both concrete instances. -/
theorem C8_migration_preserves_changed_old_dir :
    (∀ env : Install.MigrateEnv,
      (env.oldIsGitRepo = true →
        Install.git_has_uncommitted_changes env.oldStatusRes false = true →
        (Install.migrate_installation env).success = true →
        (Install.migrate_installation env).oldRemoved = false)
      ∧ (env.oldIsGitRepo = true →
          Install.git_has_uncommitted_changes env.oldStatusRes false = false →
          Install.fresh_clone env.fresh = true →
          (Install.migrate_installation env).deleteAttempted = true
          ∧ (Install.migrate_installation env).success = true))
    ∧ (Install.migrate_installation
        { oldIsGitRepo := true, oldStatusRes := some (0, " M notes.txt".data),
          fresh := { mkdirOk := true, installDirExists := false, rmtreeOk := true,
                     cloneRes := some 0, chdirOk := true, manifestExists := true },
          rmtreeOldOk := true }
        = { success := true, deleteAttempted := false, oldRemoved := false })
    ∧ (Install.migrate_installation
        { oldIsGitRepo := true, oldStatusRes := some (0, ([] : List Char)),
          fresh := { mkdirOk := true, installDirExists := false, rmtreeOk := true,
                     cloneRes := some 0, chdirOk := true, manifestExists := true },
          rmtreeOldOk := false }
        = { success := true, deleteAttempted := true, oldRemoved := false }) := by
  refine ⟨fun env => ⟨fun hg hch hs => ?_, fun hg hch hf => ?_⟩, by decide, by decide⟩
  · unfold Install.migrate_installation at hs ⊢
    simp only [hg, hch, Bool.and_self, Bool.true_and] at hs ⊢
    split at hs
    · simp at hs
    · simp_all
  · unfold Install.migrate_installation
    simp [hg, hch, hf]

/-- C9 helper: the install-time deduplication loop keeps the collected list
free of duplicates. -/
theorem install_dedup_go_nodup (resolve : String → String) (install_abs : String) :
    ∀ (paths acc : List String), acc.Nodup →
      (Install.dedup_go resolve install_abs paths acc).Nodup
  | [], acc, h => by simpa [Install.dedup_go] using h
  | path :: rest, acc, h => by
    unfold Install.dedup_go
    dsimp only
    split
    · rename_i hc
      exact install_dedup_go_nodup resolve install_abs rest _
        (List.nodup_cons.2 ⟨hc.2, h⟩)
    · exact install_dedup_go_nodup resolve install_abs rest _ h

/-- C9 helper: the install-time deduplication loop never collects the
resolved canonical install path. -/
theorem install_dedup_go_not_mem (resolve : String → String) (install_abs : String) :
    ∀ (paths acc : List String), install_abs ∉ acc →
      install_abs ∉ Install.dedup_go resolve install_abs paths acc
  | [], acc, h => by simpa [Install.dedup_go] using h
  | path :: rest, acc, h => by
    unfold Install.dedup_go
    dsimp only
    split
    · rename_i hc
      refine install_dedup_go_not_mem resolve install_abs rest _ ?_
      simp only [List.mem_cons, not_or]
      exact ⟨fun he => hc.1 he.symm, h⟩
    · exact install_dedup_go_not_mem resolve install_abs rest _ h

/-- C9 helper: the uninstall-time deduplication loop keeps the collected
list free of duplicates. -/
theorem uninstall_dedup_go_nodup (resolve : String → String) :
    ∀ (paths acc : List String), acc.Nodup →
      (Uninstall.dedup_go resolve paths acc).Nodup
  | [], acc, h => by simpa [Uninstall.dedup_go] using h
  | path :: rest, acc, h => by
    unfold Uninstall.dedup_go
    dsimp only
    split
    · rename_i hc
      exact uninstall_dedup_go_nodup resolve rest _ (List.nodup_cons.2 ⟨hc, h⟩)
    · exact uninstall_dedup_go_nodup resolve rest _ h

/-- C9 amended: the install-time scanner result is duplicate-free, never
contains the resolved canonical install path, is sorted, and each member
appears exactly once; the uninstall-time scanner result is duplicate-free
and sorted, but nothing excludes the canonical path from it. -/
theorem C9_scanner_dedup_sorted :
    (∀ env : Install.ScannerEnv,
      (Install.find_existing_installations env).Nodup
      ∧ env.resolve env.installDir ∉ Install.find_existing_installations env
      ∧ (Install.find_existing_installations env).Sorted (· ≤ ·)
      ∧ ∀ p ∈ Install.find_existing_installations env,
          (Install.find_existing_installations env).count p = 1)
    ∧ (∀ (resolve : String → String) (paths : List String),
      (Uninstall.find_installations resolve paths).Nodup
      ∧ (Uninstall.find_installations resolve paths).Sorted (· ≤ ·)) := by
  constructor
  · intro env
    have hperm := List.perm_insertionSort (· ≤ · : String → String → Prop)
      (Install.dedup_go env.resolve (env.resolve env.installDir)
        (Install.find_existing_installations_candidates env) [])
    have hnd : (Install.find_existing_installations env).Nodup :=
      hperm.nodup_iff.2 (install_dedup_go_nodup _ _ _ _ List.nodup_nil)
    refine ⟨hnd, ?_, List.sorted_insertionSort _ _,
      fun p hp => List.count_eq_one_of_mem hnd hp⟩
    intro hmem
    exact install_dedup_go_not_mem _ _ _ _ (List.not_mem_nil _) (hperm.mem_iff.1 hmem)
  · intro resolve paths
    have hperm := List.perm_insertionSort (· ≤ · : String → String → Prop)
      (Uninstall.dedup_go resolve paths [])
    exact ⟨hperm.nodup_iff.2 (uninstall_dedup_go_nodup _ _ _ List.nodup_nil),
      List.sorted_insertionSort _ _⟩

/-- C9 counterexample: the uninstall-time scanner, run where the canonical
target installation path is among the recovered candidates, returns a list
containing that canonical path, refuting the claim that the scanner result
never contains it. -/
theorem C9_uninstall_includes_canonical_path :
    "/home/user/.claude-code-docs"
      ∈ Uninstall.find_installations (fun s => s) ["/home/user/.claude-code-docs"] := by
  decide

/-- C10: the install-time scanner appends the current working directory as
a legacy candidate exactly when it holds the manifest marker and differs
from the canonical install directory; plus a concrete instance. -/
theorem C10_cwd_added_as_candidate :
    (∀ env : Install.ScannerEnv, env.cwdManifestExists = true → env.cwd ≠ env.installDir →
      Install.find_existing_installations_candidates env
        = env.commandFileCandidates ++ env.settingsCandidates ++ [env.cwd])
    ∧ (∀ env : Install.ScannerEnv,
        env.cwdManifestExists = false ∨ env.cwd = env.installDir →
      Install.find_existing_installations_candidates env
        = env.commandFileCandidates ++ env.settingsCandidates)
    ∧ Install.find_existing_installations_candidates
        { commandFileCandidates := ["/a"], settingsCandidates := ["/b"],
          cwd := "/cwd", cwdManifestExists := true, installDir := "/inst",
          resolve := fun s => s }
        = ["/a", "/b", "/cwd"] := by
  refine ⟨fun env h1 h2 => ?_, fun env h => ?_, by decide⟩
  · unfold Install.find_existing_installations_candidates
    simp [h1, bne_iff_ne.2 h2]
  · unfold Install.find_existing_installations_candidates
    rcases h with h | h <;> simp [h]

end ClaudeCodeDocs
